import Mathlib

/-!
Verification of the link-capture pipeline of the Oddsharvesterenhanced
repository.  The definitions below are a shallow embedding of the pure logic
of src/selenium_capture_links.py (and the shared validation prefix of
src/capture_links.py): Python strings are Lean `String`s, Python string
operations are re-implemented structurally over the underlying character
list, browser interaction is made explicit by passing the observed data
(anchor texts, parsed markup elements, per-page harvest outcomes) as inputs.
-/

/-- Python `str.strip()` applied to both ends of a character list
(whitespace stripping). -/
def stripWhite (l : List Char) : List Char :=
  ((l.dropWhile Char.isWhitespace).reverse.dropWhile Char.isWhitespace).reverse

/-- Python `s.strip()`: remove leading and trailing whitespace. -/
def pyStrip (s : String) : String :=
  ⟨stripWhite s.data⟩

/-- Python `s.strip(c)` for a single strip character `c`: remove every
leading and trailing occurrence of `c`. -/
def stripCharBoth (c : Char) (l : List Char) : List Char :=
  ((l.dropWhile (fun d => d == c)).reverse.dropWhile (fun d => d == c)).reverse

/-- Python `href.strip("/")` as used in the link filter. -/
def pyStripSlashes (s : String) : String :=
  ⟨stripCharBoth '/' s.data⟩

/-- Python `s.isdigit()` restricted to ASCII digits: the string is non-empty
and every character is a decimal digit. -/
def pyIsdigit (s : String) : Bool :=
  !s.data.isEmpty && s.data.all Char.isDigit

/-- Python `int(s)` for a digit string: base-10 value of the characters. -/
def pyInt (s : String) : Nat :=
  s.data.foldl (fun a c => a * 10 + (c.toNat - 48)) 0

/-- Helper for Python single-character `str.split`: accumulates the current
segment (reversed) and cuts at each separator occurrence. -/
def splitCharAux (c : Char) : List Char → List Char → List (List Char)
  | [], acc => [acc.reverse]
  | d :: ds, acc =>
    if d == c then acc.reverse :: splitCharAux c ds []
    else splitCharAux c ds (d :: acc)

/-- Python `s.split(c)` for a one-character separator `c`.  Empty segments
produced by consecutive separators are kept, exactly as in Python; the empty
string splits to `[""]`. -/
def pySplit (c : Char) (s : String) : List String :=
  (splitCharAux c s.data []).map (fun l => ⟨l⟩)

/-- Python slice `l[:n]` for an `int` bound `n`: for non-negative `n` the
first `n` elements, for negative `n` everything but the last `-n` elements. -/
def pySliceTo {α : Type} (l : List α) (n : Int) : List α :=
  if 0 ≤ n then l.take n.toNat else l.take (l.length - (-n).toNat)

/-- Python truthiness of the optional `max_pages : int | None` argument:
`None` and `0` are falsy, every other integer is truthy. -/
def pyTruthy : Option Int → Bool
  | none => false
  | some n => !(n == 0)

/-- Python `min` of a non-empty list (`0` as an unreachable default for
`[]`, where Python would raise). -/
def pyMin : List Nat → Nat
  | [] => 0
  | p :: ps => ps.foldl Nat.min p

/-- Python `max` of a non-empty list (`0` as an unreachable default for
`[]`, where Python would raise). -/
def pyMax : List Nat → Nat
  | [] => 0
  | p :: ps => ps.foldl Nat.max p

/-- Python `sorted(set(l))` for page indices: deduplicate, then sort
ascending (src/selenium_capture_links.py line 288). -/
def sortedSetNat (l : List Nat) : List Nat :=
  List.insertionSort (fun a b => a ≤ b) l.dedup

/-- Parsing of pagination anchor texts (src/selenium_capture_links.py
lines 262-266 and 278-281): each text is stripped; if the result is all
digits it contributes its integer value. -/
def parse_pagination_texts (texts : List String) : List Nat :=
  (texts.map pyStrip).filterMap (fun t => if pyIsdigit t then some (pyInt t) else none)

/-- The contiguous candidate range of `get_pagination_pages`
(src/selenium_capture_links.py lines 288-290): sort and deduplicate the
discovered indices, take their minimum and maximum, and materialize every
integer in between, inclusive. -/
def paginationFull (pages0 : List Nat) : List Nat :=
  List.range' (pyMin (sortedSetNat pages0)) (pyMax (sortedSetNat pages0) + 1 - pyMin (sortedSetNat pages0))

/-- Core of `get_pagination_pages` (src/selenium_capture_links.py lines
285-293) as a function of the already-parsed page indices: empty discovery
defaults to `[1]`; otherwise the contiguous min-to-max range, truncated with
Python slice semantics when `max_pages` is truthy. -/
def get_pagination_pages_pure (pages0 : List Nat) (max_pages : Option Int) : List Nat :=
  if pages0.isEmpty then [1]
  else
    match max_pages with
    | none => paginationFull pages0
    | some n => if n == 0 then paginationFull pages0 else pySliceTo (paginationFull pages0) n

/-- Discovery stage of `get_pagination_pages` (src/selenium_capture_links.py
lines 257-283): the live anchor texts are parsed first; only if they yield
no numeric index are the texts from the re-parsed page markup used. -/
def discovered_pages (live fallback_texts : List String) : List Nat :=
  let pages := parse_pagination_texts live
  if pages.isEmpty then parse_pagination_texts fallback_texts else pages

/-- `get_pagination_pages` (src/selenium_capture_links.py lines 234-295) as
a function of the live anchor texts, the fallback markup anchor texts, and
the optional `max_pages` bound. -/
def get_pagination_pages (live fallback_texts : List String) (max_pages : Option Int) : List Nat :=
  get_pagination_pages_pure (discovered_pages live fallback_texts) max_pages

lemma foldl_min_le_init (ps : List Nat) (p : Nat) : ps.foldl Nat.min p ≤ p := by
  induction ps generalizing p with
  | nil => simp
  | cons q qs ih => exact le_trans (ih (Nat.min p q)) (Nat.min_le_left p q)

lemma foldl_min_le_mem (ps : List Nat) (p x : Nat) (hx : x ∈ ps) :
    ps.foldl Nat.min p ≤ x := by
  induction ps generalizing p with
  | nil => cases hx
  | cons q qs ih =>
    rcases List.mem_cons.mp hx with h | h
    · subst h
      exact le_trans (foldl_min_le_init qs (Nat.min p x)) (Nat.min_le_right p x)
    · exact ih (Nat.min p q) h

lemma foldl_min_mem_or (ps : List Nat) (p : Nat) :
    ps.foldl Nat.min p = p ∨ ps.foldl Nat.min p ∈ ps := by
  induction ps generalizing p with
  | nil => exact Or.inl rfl
  | cons q qs ih =>
    rcases ih (Nat.min p q) with h | h
    · rcases le_total p q with hpq | hpq
      · exact Or.inl (by rw [List.foldl_cons, h]; unfold Nat.min; exact inf_eq_left.mpr hpq)
      · refine Or.inr ?_
        rw [List.foldl_cons, h]
        have hq : Nat.min p q = q := by unfold Nat.min; exact inf_eq_right.mpr hpq
        rw [hq]
        exact List.mem_cons_self q qs
    · exact Or.inr (List.mem_cons_of_mem q h)

lemma foldl_max_init_le (ps : List Nat) (p : Nat) : p ≤ ps.foldl Nat.max p := by
  induction ps generalizing p with
  | nil => simp
  | cons q qs ih => exact le_trans (Nat.le_max_left p q) (ih (Nat.max p q))

lemma foldl_max_mem_le (ps : List Nat) (p x : Nat) (hx : x ∈ ps) :
    x ≤ ps.foldl Nat.max p := by
  induction ps generalizing p with
  | nil => cases hx
  | cons q qs ih =>
    rcases List.mem_cons.mp hx with h | h
    · subst h
      exact le_trans (Nat.le_max_right p x) (foldl_max_init_le qs (Nat.max p x))
    · exact ih (Nat.max p q) h

lemma foldl_max_mem_or (ps : List Nat) (p : Nat) :
    ps.foldl Nat.max p = p ∨ ps.foldl Nat.max p ∈ ps := by
  induction ps generalizing p with
  | nil => exact Or.inl rfl
  | cons q qs ih =>
    rcases ih (Nat.max p q) with h | h
    · rcases le_total q p with hpq | hpq
      · exact Or.inl (by rw [List.foldl_cons, h]; unfold Nat.max; exact sup_eq_left.mpr hpq)
      · refine Or.inr ?_
        rw [List.foldl_cons, h]
        have hq : Nat.max p q = q := by unfold Nat.max; exact sup_eq_right.mpr hpq
        rw [hq]
        exact List.mem_cons_self q qs
    · exact Or.inr (List.mem_cons_of_mem q h)

lemma pyMin_mem (l : List Nat) (h : l ≠ []) : pyMin l ∈ l := by
  match l with
  | [] => exact absurd rfl h
  | p :: ps =>
    show ps.foldl Nat.min p ∈ p :: ps
    rcases foldl_min_mem_or ps p with h' | h'
    · rw [h']; exact List.mem_cons_self p ps
    · exact List.mem_cons_of_mem p h'

lemma pyMin_le (l : List Nat) (x : Nat) (hx : x ∈ l) : pyMin l ≤ x := by
  match l with
  | [] => cases hx
  | p :: ps =>
    rcases List.mem_cons.mp hx with h | h
    · exact h ▸ foldl_min_le_init ps p
    · exact foldl_min_le_mem ps p x h

lemma pyMax_mem (l : List Nat) (h : l ≠ []) : pyMax l ∈ l := by
  match l with
  | [] => exact absurd rfl h
  | p :: ps =>
    show ps.foldl Nat.max p ∈ p :: ps
    rcases foldl_max_mem_or ps p with h' | h'
    · rw [h']; exact List.mem_cons_self p ps
    · exact List.mem_cons_of_mem p h'

lemma pyMax_ge (l : List Nat) (x : Nat) (hx : x ∈ l) : x ≤ pyMax l := by
  match l with
  | [] => cases hx
  | p :: ps =>
    rcases List.mem_cons.mp hx with h | h
    · exact h ▸ foldl_max_init_le ps p
    · exact foldl_max_mem_le ps p x h

lemma pyMin_congr (l l' : List Nat) (h : l ≠ []) (h' : l' ≠ [])
    (hm : ∀ x, x ∈ l ↔ x ∈ l') : pyMin l = pyMin l' :=
  le_antisymm (pyMin_le l _ ((hm _).mpr (pyMin_mem l' h')))
    (pyMin_le l' _ ((hm _).mp (pyMin_mem l h)))

lemma pyMax_congr (l l' : List Nat) (h : l ≠ []) (h' : l' ≠ [])
    (hm : ∀ x, x ∈ l ↔ x ∈ l') : pyMax l = pyMax l' :=
  le_antisymm (pyMax_ge l' _ ((hm _).mp (pyMax_mem l h)))
    (pyMax_ge l _ ((hm _).mpr (pyMax_mem l' h')))

lemma sortedSetNat_mem (l : List Nat) (x : Nat) : x ∈ sortedSetNat l ↔ x ∈ l := by
  unfold sortedSetNat
  rw [(List.perm_insertionSort _ l.dedup).mem_iff, List.mem_dedup]

lemma sortedSetNat_ne_nil (l : List Nat) (h : l ≠ []) : sortedSetNat l ≠ [] := by
  obtain ⟨x, hx⟩ := List.exists_mem_of_ne_nil l h
  exact List.ne_nil_of_mem ((sortedSetNat_mem l x).mpr hx)

lemma paginationFull_eq (l : List Nat) (h : l ≠ []) :
    paginationFull l = List.range' (pyMin l) (pyMax l + 1 - pyMin l) := by
  unfold paginationFull
  rw [pyMin_congr (sortedSetNat l) l (sortedSetNat_ne_nil l h) h (sortedSetNat_mem l),
    pyMax_congr (sortedSetNat l) l (sortedSetNat_ne_nil l h) h (sortedSetNat_mem l)]

lemma pyMin_le_pyMax (l : List Nat) (h : l ≠ []) : pyMin l ≤ pyMax l :=
  le_trans (pyMin_le l (pyMax l) (pyMax_mem l h)) (le_refl _)

lemma gpp_pure_none (l : List Nat) (h : l ≠ []) :
    get_pagination_pages_pure l none = List.range' (pyMin l) (pyMax l + 1 - pyMin l) := by
  unfold get_pagination_pages_pure
  rw [if_neg (by simpa [List.isEmpty_iff] using h)]
  exact paginationFull_eq l h

lemma gpp_pure_zero (l : List Nat) (h : l ≠ []) :
    get_pagination_pages_pure l (some 0) = List.range' (pyMin l) (pyMax l + 1 - pyMin l) := by
  have hfull := paginationFull_eq l h
  unfold get_pagination_pages_pure
  rw [if_neg (by simpa [List.isEmpty_iff] using h)]
  simpa using hfull

lemma gpp_pure_some (l : List Nat) (h : l ≠ []) (n : Int) (hn : ¬ n = 0) :
    get_pagination_pages_pure l (some n)
      = pySliceTo (List.range' (pyMin l) (pyMax l + 1 - pyMin l)) n := by
  unfold get_pagination_pages_pure
  rw [if_neg (by simpa [List.isEmpty_iff] using h)]
  have hb : (n == 0) = false := by simpa using hn
  simp only [hb, Bool.false_eq_true, if_false, paginationFull_eq l h]

/-- C1: with no `maxPages` limit, the pagination range computed from any
non-empty list of discovered page indices (possibly unsorted, sparse, or
duplicated) is exactly the contiguous run of integers from the minimum
discovered index to the maximum discovered index inclusive. -/
theorem pagination_range_contiguous_min_to_max (pages0 : List Nat) (h : pages0 ≠ []) :
    get_pagination_pages_pure pages0 none
        = List.range' (pyMin pages0) (pyMax pages0 + 1 - pyMin pages0)
      ∧ pyMin pages0 ∈ pages0 ∧ pyMax pages0 ∈ pages0
      ∧ (∀ x ∈ pages0, pyMin pages0 ≤ x ∧ x ≤ pyMax pages0)
      ∧ (∀ k : Nat, k ∈ get_pagination_pages_pure pages0 none
          ↔ pyMin pages0 ≤ k ∧ k ≤ pyMax pages0) := by
  refine ⟨gpp_pure_none pages0 h, pyMin_mem pages0 h, pyMax_mem pages0 h, ?_, ?_⟩
  · exact fun x hx => ⟨pyMin_le pages0 x hx, pyMax_ge pages0 x hx⟩
  · intro k
    rw [gpp_pure_none pages0 h, List.mem_range'_1]
    have := pyMin_le_pyMax pages0 h
    omega

/-- Witness for C1 at the concrete discovered index list `[4, 2, 2, 7]`. -/
theorem pagination_range_contiguous_min_to_max_witness :
    get_pagination_pages_pure [4, 2, 2, 7] none = [2, 3, 4, 5, 6, 7] := by
  have h := (pagination_range_contiguous_min_to_max [4, 2, 2, 7] (by decide)).1
  rw [h]
  decide

/-- C2 counterexample: the claim quantifies over every caller-supplied
`maxPages` value, but for `maxPages = 0` the code takes the falsy branch and
returns the full range instead of the first zero elements of it. -/
theorem pagination_maxpages_zero_cex :
    get_pagination_pages ["1", "2", "3", "4", "5"] [] (some 0)
      ≠ (List.range' 1 5).take (Int.toNat 0) := by
  decide

/-- C2 (amended): for every positive `maxPages = N`, the returned range is
exactly the first `N` elements of the full contiguous min-to-max range, in
order; the scenario with anchor texts "1".."5" and `maxPages = 3` gives
`[1, 2, 3]`. -/
theorem pagination_positive_maxpages_take (live fb : List String) (n : Int)
    (h : discovered_pages live fb ≠ []) (hn : 0 < n) :
    get_pagination_pages live fb (some n)
      = (List.range' (pyMin (discovered_pages live fb))
          (pyMax (discovered_pages live fb) + 1 - pyMin (discovered_pages live fb))).take n.toNat := by
  unfold get_pagination_pages
  rw [gpp_pure_some _ h n (by omega)]
  unfold pySliceTo
  rw [if_pos (le_of_lt hn)]

/-- Witness for the amended C2: discovered anchor texts "1".."5" with
`maxPages = 3` yield `[1, 2, 3]`. -/
theorem pagination_positive_maxpages_take_witness :
    get_pagination_pages ["1", "2", "3", "4", "5"] [] (some 3) = [1, 2, 3] := by
  have h := pagination_positive_maxpages_take ["1", "2", "3", "4", "5"] [] 3 (by decide) (by decide)
  rw [h]
  decide

/-- C7: when neither the live anchor texts nor the fallback markup texts
parse to any numeric page index, the pagination range defaults to the
single-page range `[1]`, for any `maxPages` argument. -/
theorem pagination_no_anchors_defaults_single_page (live fb : List String) (mp : Option Int)
    (h1 : parse_pagination_texts live = []) (h2 : parse_pagination_texts fb = []) :
    get_pagination_pages live fb mp = [1] := by
  have hd : discovered_pages live fb = [] := by
    simp [discovered_pages, h1, h2]
  unfold get_pagination_pages
  rw [hd]
  rfl

/-- Witness for C7 at concrete non-numeric anchor texts. -/
theorem pagination_no_anchors_defaults_single_page_witness :
    get_pagination_pages ["Next", " ", "2a"] ["..."] (some 7) = [1] := by
  exact pagination_no_anchors_defaults_single_page ["Next", " ", "2a"] ["..."] (some 7)
    (by decide) (by decide)

/-- C10: for a falsy `max_pages` (`None` or `0`), the truncation branch is
not taken and the full contiguous min-to-max range is returned. -/
theorem pagination_falsy_maxpages_full_range (pages0 : List Nat) (mp : Option Int)
    (h : pages0 ≠ []) (hmp : pyTruthy mp = false) :
    get_pagination_pages_pure pages0 mp
      = List.range' (pyMin pages0) (pyMax pages0 + 1 - pyMin pages0) := by
  match mp with
  | none => exact gpp_pure_none pages0 h
  | some n =>
    have hn : n = 0 := by simpa [pyTruthy] using hmp
    subst hn
    exact gpp_pure_zero pages0 h

/-- Witness for C10: `max_pages = 0` on discovered indices `[3, 5]` yields
the full gap-filled range `[3, 4, 5]`. -/
theorem pagination_falsy_maxpages_full_range_witness :
    get_pagination_pages_pure [3, 5] (some 0) = [3, 4, 5] := by
  have h := pagination_falsy_maxpages_full_range [3, 5] (some 0) (by decide) (by decide)
  rw [h]
  decide

/-- One element of the parsed listing markup, as seen by the harvester: the
class attribute values of the element, and the href attributes of the anchor
descendants carrying one (`row.find_all("a", href=True)`). -/
structure HtmlElement where
  classes : List String
  hrefs : List String

/-- Modelled from the spec: the base origin constant imported from
src/utils/constants.py, a file missing from the snapshot; the spec fixes it
as the OddsPortal site origin against which harvested hrefs are
absolutized. -/
def ODDSPORTAL_BASE_URL : String := "https://www.oddsportal.com"

/-- The row query of the harvester (src/selenium_capture_links.py line 179):
an element participates when some class attribute value matches the anchored
pattern `^eventRow`, i.e. begins with `eventRow`. -/
def classIsEventRow (c : String) : Bool :=
  "eventRow".data.isPrefixOf c.data

/-- Python `href.strip("/").split("/")` (src/selenium_capture_links.py
line 184): the slash-trimmed href cut at every slash, keeping empty segments
arising from consecutive slashes. -/
def href_segments (href : String) : List String :=
  pySplit '/' (pyStripSlashes href)

/-- The harvester's link filter (src/selenium_capture_links.py line 184):
`len(href.strip("/").split("/")) > 3`. -/
def is_match_href (href : String) : Bool :=
  (href_segments href).length > 3

/-- `extract_match_links_from_html` (src/selenium_capture_links.py lines
177-186) over the parsed markup: collect the hrefs of anchors inside
`eventRow`-classed elements, keep those passing the segment filter, prefix
the base origin, and deduplicate (the Python set). -/
def extract_match_links_from_html (doc : List HtmlElement) : List String :=
  (((doc.filter (fun e => e.classes.any classIsEventRow)).map
      (fun e => e.hrefs.filter is_match_href)).flatten.map
    (fun h => ODDSPORTAL_BASE_URL ++ h)).dedup

/-- Stated from the spec's words, for comparison with the code: the path
portion of an absolute https URL, i.e. everything from the first slash after
the scheme and authority. -/
def spec_url_path (url : String) : String :=
  ⟨(url.data.drop 8).dropWhile (fun c => !(c == '/'))⟩

/-- Stated from the spec's words, for comparison with the code: the path of
the link, slashes trimmed, splits into more than three non-empty
segments. -/
def spec_match_path_ok (url : String) : Bool :=
  ((pySplit '/' (pyStripSlashes (spec_url_path url))).filter (fun s => !(s == ""))).length > 3

/-- C4 counterexample: an href with consecutive slashes passes the code's
filter (which counts empty segments), yet the resulting link's trimmed path
has only three non-empty segments, so the claim's non-empty-segment bound
fails on this produced link. -/
theorem harvester_nonempty_segments_cex :
    "https://www.oddsportal.com/a//b/c"
        ∈ extract_match_links_from_html [HtmlElement.mk ["eventRow1"] ["/a//b/c"]]
      ∧ spec_match_path_ok "https://www.oddsportal.com/a//b/c" = false := by
  decide

/-- C4 (amended): every link produced by the harvester is the base origin
(an absolute https URL prefix) concatenated with an href of an anchor inside
an `eventRow`-classed element, where the slash-trimmed href splits into more
than three segments, counting empty segments from consecutive slashes. -/
theorem harvester_links_base_href_segments (doc : List HtmlElement) (L : String)
    (hL : L ∈ extract_match_links_from_html doc) :
    ∃ e ∈ doc, e.classes.any classIsEventRow = true ∧
      ∃ href ∈ e.hrefs, is_match_href href = true ∧
        L = ODDSPORTAL_BASE_URL ++ href ∧
        L = "https://" ++ ("www.oddsportal.com" ++ href) := by
  unfold extract_match_links_from_html at hL
  rw [List.mem_dedup] at hL
  rcases List.mem_map.mp hL with ⟨href, hhr, rfl⟩
  rcases List.mem_flatten.mp hhr with ⟨hs, hhs, hmem⟩
  rcases List.mem_map.mp hhs with ⟨e, he, rfl⟩
  rcases List.mem_filter.mp he with ⟨hedoc, hecls⟩
  rcases List.mem_filter.mp hmem with ⟨hhrefs, hmh⟩
  refine ⟨e, hedoc, hecls, href, hhrefs, hmh, rfl, ?_⟩
  have hbase : ODDSPORTAL_BASE_URL = "https://" ++ "www.oddsportal.com" := by decide
  rw [hbase, String.append_assoc]

/-- Witness for the amended C4 at a one-row document with a four-segment
href. -/
theorem harvester_links_base_href_segments_witness :
    ∃ e ∈ [HtmlElement.mk ["eventRow"] ["/f/e/2024/m1"]],
      e.classes.any classIsEventRow = true ∧
      ∃ href ∈ e.hrefs, is_match_href href = true ∧
        "https://www.oddsportal.com/f/e/2024/m1" = ODDSPORTAL_BASE_URL ++ href ∧
        "https://www.oddsportal.com/f/e/2024/m1" = "https://" ++ ("www.oddsportal.com" ++ href) := by
  exact harvester_links_base_href_segments [HtmlElement.mk ["eventRow"] ["/f/e/2024/m1"]]
    "https://www.oddsportal.com/f/e/2024/m1" (by decide)

/-- Code-point lexicographic comparison of character lists: Python string
comparison `a <= b`. -/
def charListLe : List Char → List Char → Bool
  | [], _ => true
  | _ :: _, [] => false
  | a :: as, b :: bs =>
    if a.toNat < b.toNat then true
    else if b.toNat < a.toNat then false
    else charListLe as bs

/-- Python `a <= b` on strings: lexicographic by code point. -/
def pyStrLe (a b : String) : Bool :=
  charListLe a.data b.data

lemma charListLe_cons (a b : Char) (as bs : List Char) :
    charListLe (a :: as) (b :: bs)
      = if a.toNat < b.toNat then true
        else if b.toNat < a.toNat then false
        else charListLe as bs := rfl

lemma charListLe_total (x : List Char) : ∀ y, charListLe x y = true ∨ charListLe y x = true := by
  induction x with
  | nil => intro y; exact Or.inl rfl
  | cons a as ih =>
    intro y
    match y with
    | [] => exact Or.inr rfl
    | b :: bs =>
      rcases Nat.lt_trichotomy a.toNat b.toNat with h1 | h1 | h1
      · exact Or.inl (by rw [charListLe_cons, if_pos h1])
      · rcases ih bs with h | h
        · exact Or.inl (by rw [charListLe_cons, if_neg (by omega), if_neg (by omega)]; exact h)
        · exact Or.inr (by rw [charListLe_cons, if_neg (by omega), if_neg (by omega)]; exact h)
      · exact Or.inr (by rw [charListLe_cons, if_pos h1])

lemma charListLe_trans (x : List Char) :
    ∀ y z, charListLe x y = true → charListLe y z = true → charListLe x z = true := by
  induction x with
  | nil => intro y z _ _; rfl
  | cons a as ih =>
    intro y z hxy hyz
    match y, z with
    | [], _ => exact absurd hxy (by simp [charListLe])
    | b :: bs, [] => exact absurd hyz (by simp [charListLe])
    | b :: bs, c :: cs =>
      rw [charListLe_cons] at hxy hyz ⊢
      rcases Nat.lt_trichotomy a.toNat b.toNat with h1 | h1 | h1 <;>
        rcases Nat.lt_trichotomy b.toNat c.toNat with h2 | h2 | h2
      · rw [if_pos (by omega)]
      · rw [if_pos (by omega)]
      · rw [if_neg (by omega), if_pos (by omega)] at hyz; exact absurd hyz (by simp)
      · rw [if_pos (by omega)]
      · rw [if_neg (by omega), if_neg (by omega)]
        rw [if_neg (by omega), if_neg (by omega)] at hxy
        rw [if_neg (by omega), if_neg (by omega)] at hyz
        exact ih bs cs hxy hyz
      · rw [if_neg (by omega), if_pos (by omega)] at hyz; exact absurd hyz (by simp)
      · rw [if_neg (by omega), if_pos (by omega)] at hxy; exact absurd hxy (by simp)
      · rw [if_neg (by omega), if_pos (by omega)] at hxy; exact absurd hxy (by simp)
      · rw [if_neg (by omega), if_pos (by omega)] at hxy; exact absurd hxy (by simp)

instance : DecidableRel (fun a b : String => pyStrLe a b = true) :=
  fun a b => inferInstanceAs (Decidable (pyStrLe a b = true))

instance : IsTotal String (fun a b => pyStrLe a b = true) :=
  ⟨fun a b => charListLe_total a.data b.data⟩

instance : IsTrans String (fun a b => pyStrLe a b = true) :=
  ⟨fun a b c => charListLe_trans a.data b.data c.data⟩

/-- Python `sorted(set(links))` (src/selenium_capture_links.py line 312):
deduplicate, then sort lexicographically ascending by code point. -/
def sortedSetStr (l : List String) : List String :=
  List.insertionSort (fun a b => pyStrLe a b = true) l.dedup

/-- `save_collected_links` (src/selenium_capture_links.py lines 298-313)
reduced to the rows written to the CSV file: `none` models the early return
that writes no file when `links` is empty; otherwise the header row
`match_link` followed by one row per element of `sorted(set(links))`. -/
def save_collected_links (links : List String) : Option (List (List String)) :=
  if links.isEmpty then none
  else some (["match_link"] :: (sortedSetStr links).map (fun l => [l]))

/-- C5: for every non-empty list of collected links, the written CSV is
exactly the header row `match_link` followed by the distinct links sorted
lexicographically ascending (code-point order), one per row, with no
duplicates and exactly the collected links as members. -/
theorem output_rows_sorted_unique (links : List String) (h : links ≠ []) :
    ∃ body : List String,
      save_collected_links links = some (["match_link"] :: body.map (fun l => [l]))
      ∧ List.Sorted (fun a b => pyStrLe a b = true) body
      ∧ body.Nodup
      ∧ (∀ l, l ∈ body ↔ l ∈ links) := by
  refine ⟨sortedSetStr links, ?_, ?_, ?_, ?_⟩
  · unfold save_collected_links
    rw [if_neg (by simpa [List.isEmpty_iff] using h)]
  · exact List.sorted_insertionSort _ _
  · exact ((List.perm_insertionSort _ _).nodup_iff).mpr (List.nodup_dedup _)
  · intro l
    unfold sortedSetStr
    rw [(List.perm_insertionSort _ _).mem_iff, List.mem_dedup]

/-- Witness for C5 at the concrete collected list `["b", "a", "b"]`. -/
theorem output_rows_sorted_unique_witness :
    ∃ body : List String,
      save_collected_links ["b", "a", "b"] = some (["match_link"] :: body.map (fun l => [l]))
      ∧ List.Sorted (fun a b => pyStrLe a b = true) body
      ∧ body.Nodup
      ∧ (∀ l, l ∈ body ↔ l ∈ ["b", "a", "b"]) :=
  output_rows_sorted_unique ["b", "a", "b"] (by decide)

/-- Outcome of one page of a season run: either the harvested links of the
page, or a caught per-page exception (src/selenium_capture_links.py lines
349-381) which contributes nothing. -/
inductive PageResult where
  | ok (links : List String)
  | err
deriving DecidableEq

/-- The `all_links` accumulator of `capture_links_selenium`
(src/selenium_capture_links.py lines 348-379): per-page links concatenated
in page order, failed pages contributing nothing. -/
def season_all_links (results : List PageResult) : List String :=
  (results.map (fun r => match r with | PageResult.ok ls => ls | PageResult.err => [])).flatten

/-- `unique_links = list(set(all_links))` (src/selenium_capture_links.py
line 382). -/
def season_unique_links (results : List PageResult) : List String :=
  (season_all_links results).dedup

/-- The per-season tail of `capture_links_selenium`
(src/selenium_capture_links.py lines 382-383): deduplicate the accumulated
links and hand them to `save_collected_links`. -/
def run_season (results : List PageResult) : Option (List (List String)) :=
  save_collected_links (season_unique_links results)

lemma mem_season_unique (results : List PageResult) (l : String) :
    l ∈ season_unique_links results ↔ ∃ ls, PageResult.ok ls ∈ results ∧ l ∈ ls := by
  unfold season_unique_links season_all_links
  rw [List.mem_dedup, List.mem_flatten]
  constructor
  · rintro ⟨ls, hls, hl⟩
    rcases List.mem_map.mp hls with ⟨r, hr, rfl⟩
    match r with
    | PageResult.ok ls0 => exact ⟨ls0, hr, hl⟩
    | PageResult.err => cases hl
  · rintro ⟨ls, hok, hl⟩
    exact ⟨ls, List.mem_map.mpr ⟨PageResult.ok ls, hok, rfl⟩, hl⟩

/-- C6: the deduplicated link list passed to persistence has no duplicates
and contains exactly the links harvested on some successful page: the
set-union of the per-page harvests, with cross-page duplicates collapsed. -/
theorem season_linkset_is_union (results : List PageResult) :
    (season_unique_links results).Nodup
    ∧ (∀ l, l ∈ season_unique_links results ↔ ∃ ls, PageResult.ok ls ∈ results ∧ l ∈ ls) :=
  ⟨List.nodup_dedup _, fun l => mem_season_unique results l⟩

/-- C3 counterexample: a season in which every page degraded collects no
links, and the saver's early return writes no file at all, contradicting
the claim that the file is written even then. -/
theorem output_skipped_when_empty_cex :
    run_season [PageResult.err, PageResult.err] = none := by
  decide

/-- C3 (amended): the output CSV is written exactly when the collected link
set is non-empty — per-page soft errors never prevent the write when links
were collected, but an empty collected set produces no file. -/
theorem output_written_iff_nonempty_linkset (results : List PageResult) :
    (run_season results).isSome = true ↔ season_unique_links results ≠ [] := by
  unfold run_season save_collected_links
  by_cases h : season_unique_links results = []
  · simp [h]
  · simp [List.isEmpty_iff, h]

/-- Result of one `navigate_to_page` call: whether a pagination anchor was
clicked, and how many times the location-fragment fallback executed. -/
structure NavOutcome where
  clicked : Bool
  hashWrites : Nat

/-- Anchor test of `navigate_to_page` (src/selenium_capture_links.py lines
214-216): the stripped anchor text is all digits and equals the target
index. -/
def anchor_matches (target : Nat) (txt : String) : Bool :=
  pyIsdigit (pyStrip txt) && (pyInt (pyStrip txt) == target)

/-- One poll of the pagination anchors: some observed anchor matches the
target index. -/
def poll_has_match (target : Nat) (obs : List String) : Bool :=
  obs.any (anchor_matches target)

/-- The polling loop of `navigate_to_page` (src/selenium_capture_links.py
lines 206-231) over the sequence of anchor-text observations made by the
successive polls inside the attempt window: a matching anchor is clicked
and the call returns; otherwise, at the end of the first iteration without
a match, the `attempted_js_hash` flag gates one write of the location
fragment, and polling continues. -/
def navLoop (target : Nat) : List (List String) → Bool → NavOutcome
  | [], _ => ⟨false, 0⟩
  | obs :: rest, attempted =>
    if poll_has_match target obs then ⟨true, 0⟩
    else
      let r := navLoop target rest true
      if attempted then r else ⟨r.clicked, r.hashWrites + 1⟩

/-- `navigate_to_page` for a target index, starting with the fallback not
yet attempted. -/
def navigate_to_page (target : Nat) (polls : List (List String)) : NavOutcome :=
  navLoop target polls false

lemma navLoop_true_hash (target : Nat) (polls : List (List String)) :
    (navLoop target polls true).hashWrites = 0 := by
  induction polls with
  | nil => rfl
  | cons obs rest ih =>
    by_cases h : poll_has_match target obs
    · simp [navLoop, h]
    · simp [navLoop, h, ih]

lemma navLoop_clicked (target : Nat) (polls : List (List String)) :
    ∀ attempted, (navLoop target polls attempted).clicked = polls.any (poll_has_match target) := by
  induction polls with
  | nil => intro attempted; rfl
  | cons obs rest ih =>
    intro attempted
    by_cases h : poll_has_match target obs
    · simp [navLoop, h]
    · cases attempted
      · simp [navLoop, h, ih]
      · simp [navLoop, h, ih]

/-- C8 counterexample: with no matching anchor on the first poll but one on
the second, the call both uses the fallback (one fragment write) and later
clicks the matching anchor, so the fallback is not restricted to the case
where no anchor is found before the window elapses. -/
theorem navigation_fallback_cex :
    (navigate_to_page 2 [["Next"], ["2"]]).hashWrites = 1
    ∧ (navigate_to_page 2 [["Next"], ["2"]]).clicked = true
    ∧ poll_has_match 2 ["2"] = true := by
  decide

/-- C8 (amended): the fragment-write fallback executes at most once per
call; it executes exactly when the window is non-empty and the first poll
finds no matching anchor (even if a later poll does); and the anchor click
happens exactly when some poll within the window finds an anchor whose
exact text equals the target. -/
theorem navigation_fallback_first_poll (target : Nat) (polls : List (List String)) :
    (navigate_to_page target polls).hashWrites ≤ 1
    ∧ ((navigate_to_page target polls).hashWrites = 0
        ↔ (polls = [] ∨ poll_has_match target (polls.headD []) = true))
    ∧ ((navigate_to_page target polls).clicked = true
        ↔ ∃ obs ∈ polls, poll_has_match target obs = true) := by
  unfold navigate_to_page
  match polls with
  | [] =>
    refine ⟨by simp [navLoop], by simp [navLoop], ?_⟩
    simp [navLoop]
  | obs :: rest =>
    by_cases h : poll_has_match target obs
    · refine ⟨by simp [navLoop, h], by simp [navLoop, h], ?_⟩
      rw [navLoop_clicked target (obs :: rest) false]
      simp [List.any_eq_true]
    · refine ⟨?_, ?_, ?_⟩
      · simp [navLoop, h, navLoop_true_hash]
      · simp [navLoop, h, navLoop_true_hash]
      · rw [navLoop_clicked target (obs :: rest) false]
        simp [List.any_eq_true]

/-- `_split_csv_argument` (src/selenium_capture_links.py lines 22-23 and
src/capture_links.py lines 16-18): split on commas, strip each item, and
keep only the non-empty results. -/
def _split_csv_argument (raw : String) : List String :=
  ((pySplit ',' raw).map pyStrip).filter (fun s => !(s == ""))

/-- The two request-level validation failures of `capture_links_selenium`
(src/selenium_capture_links.py lines 320-323) and `capture_links`
(src/capture_links.py lines 73-76). -/
inductive CaptureError where
  | leaguesEmpty
  | seasonsEmpty

/-- Observable effects of one `capture_links_selenium` run: the raised
request-level error if any, whether the browser session was constructed,
and how many output files were written. -/
structure RunModel where
  raised : Option CaptureError
  browserBuilt : Bool
  filesWritten : Nat

/-- `capture_links_selenium` (src/selenium_capture_links.py lines 316-383)
at the level of its observable effects: the league and season arguments are
split and validated before `build_driver` runs; past validation, the browser
is built and one file per (league, season) pair with a non-empty collected
link set is written, with the per-page outcomes supplied by `harvest`. -/
def capture_links_selenium (leaguesArg seasonsArg : String)
    (harvest : String → String → List PageResult) : RunModel :=
  let leagues := _split_csv_argument leaguesArg
  let seasons := _split_csv_argument seasonsArg
  if leagues.isEmpty then ⟨some CaptureError.leaguesEmpty, false, 0⟩
  else if seasons.isEmpty then ⟨some CaptureError.seasonsEmpty, false, 0⟩
  else
    ⟨none, true,
      ((leagues.map (fun lg =>
        (seasons.filter (fun sn => (run_season (harvest lg sn)).isSome)).length)).sum)⟩

/-- C9: if the parsed league list or the parsed season list is empty after
splitting and discarding blank items, the run raises a request-level error
before any browser work: the browser is never constructed and no output
file is written. -/
theorem empty_request_aborts_before_browser (leaguesArg seasonsArg : String)
    (harvest : String → String → List PageResult)
    (h : _split_csv_argument leaguesArg = [] ∨ _split_csv_argument seasonsArg = []) :
    (capture_links_selenium leaguesArg seasonsArg harvest).raised.isSome = true
    ∧ (capture_links_selenium leaguesArg seasonsArg harvest).browserBuilt = false
    ∧ (capture_links_selenium leaguesArg seasonsArg harvest).filesWritten = 0 := by
  rcases h with h | h
  · have hl : (_split_csv_argument leaguesArg).isEmpty = true := by simp [h]
    simp [capture_links_selenium, hl]
  · have hs : (_split_csv_argument seasonsArg).isEmpty = true := by simp [h]
    by_cases hl : (_split_csv_argument leaguesArg).isEmpty = true
    · simp [capture_links_selenium, hl]
    · simp [capture_links_selenium, hl, hs]

/-- Witness for C9: a leagues argument consisting only of blanks and commas
aborts the run with no browser work and no output file. -/
theorem empty_request_aborts_before_browser_witness :
    (capture_links_selenium " , ," "2023-2024" (fun _ _ => [])).raised.isSome = true
    ∧ (capture_links_selenium " , ," "2023-2024" (fun _ _ => [])).browserBuilt = false
    ∧ (capture_links_selenium " , ," "2023-2024" (fun _ _ => [])).filesWritten = 0 :=
  empty_request_aborts_before_browser " , ," "2023-2024" (fun _ _ => []) (Or.inl (by decide))
